import Mathlib

/-!
Shallow embedding of mutiny-node's payjoin transport and session layer.

Sources embedded:
* `src/mutiny-core/src/networking/ws_io.rs` — the `WsIo` adapter that turns a
  frame-oriented WebSocket into a byte-stream duplex (`poll_read`,
  `poll_write`, `poll_flush`, `poll_close`).
* `src/mutiny-core/src/payjoin.rs` — `separate_headers_and_body`, the
  `PayjoinStorage` session operations (`get_payjoin`, `get_payjoins`,
  `persist_payjoin`, `delete_payjoin`, `get_payjoin_key`) and the
  `fetch_ohttp_keys` bootstrap with its `Error` taxonomy.

Bytes are modelled as `Nat` (with `< 256` hypotheses where byte-ness
matters), machine buffers as `List Nat`, and the async `Poll` protocol as an
explicit state-passing step function returning `Poll α × WsIo`.
-/

/-- Model of `std::task::Poll`. -/
inductive Poll (α : Type) where
  | Ready (a : α)
  | Pending
deriving Repr, DecidableEq

/-- Model of `gloo_net::websocket::Message`: a WebSocket frame is either a
text frame or a binary frame. -/
inductive Message where
  | text (s : String)
  | bytes (data : List Nat)
deriving Repr, DecidableEq

/-- The state of a `WsIo` value (`ws_io.rs`, lines 11–15), together with the
observable state of its two mpsc channels: `incoming` is the queue of frames
the receive pump has forwarded (with `incomingClosed` recording whether the
pump has ended, i.e. the channel's sender was dropped), `outgoing` is the
queue of frames handed to the send pump (with `outgoingClosed` recording
`close_channel`), and `read_buffer` is the leftover-byte buffer. -/
structure WsIo where
  incoming : List Message
  incomingClosed : Bool
  read_buffer : List Nat
  outgoing : List Message
  outgoingClosed : Bool
deriving Repr, DecidableEq

/-- A fresh `WsIo` as produced by `WsIo::new` before any traffic: both
queues empty and open, empty leftover buffer. -/
def wsIoInit : WsIo :=
  { incoming := [], incomingClosed := false, read_buffer := [],
    outgoing := [], outgoingClosed := false }

/-- Model of `WsIo::poll_read` (`ws_io.rs`, lines 51–76).  Takes the caller's buffer
length and returns the poll outcome — `Except.ok bs` models `Ok(len)` with
`bs` the bytes copied into `buf[..len]` — together with the successor state.
Leftover bytes are served first; otherwise the next frame is dequeued: a
binary frame is copied up to `buf.len()` with the remainder buffered, a
non-binary frame is consumed and `Pending` returned, and an exhausted closed
channel yields `Ok(0)`. -/
def WsIo.poll_read (s : WsIo) (buflen : Nat) :
    Poll (Except String (List Nat)) × WsIo :=
  if s.read_buffer.isEmpty then
    match s.incoming with
    | Message.bytes data :: rest =>
      let len := min buflen data.length
      (Poll.Ready (Except.ok (data.take len)),
        { s with incoming := rest, read_buffer := data.drop len })
    | Message.text _ :: rest =>
      (Poll.Pending, { s with incoming := rest })
    | [] =>
      if s.incomingClosed then (Poll.Ready (Except.ok []), s)
      else (Poll.Pending, s)
  else
    let len := min buflen s.read_buffer.length
    (Poll.Ready (Except.ok (s.read_buffer.take len)),
      { s with read_buffer := s.read_buffer.drop len })

/-- Model of `WsIo::poll_write` (`ws_io.rs`, lines 80–96).  `poll_ready` on an
unbounded sender is `Ready(Ok)` while the channel is open and `Ready(Err)`
once it is closed; on success the whole input is enqueued as one binary
frame and the full input length is reported. -/
def WsIo.poll_write (s : WsIo) (data : List Nat) :
    Poll (Except String Nat) × WsIo :=
  if s.outgoingClosed then
    (Poll.Ready (Except.error "WebSocket send channel closed"), s)
  else
    (Poll.Ready (Except.ok data.length),
      { s with outgoing := s.outgoing ++ [Message.bytes data] })

/-- Model of `WsIo::poll_flush` (`ws_io.rs`, lines 98–100): unconditional
success. -/
def WsIo.poll_flush (s : WsIo) : Poll (Except String Unit) × WsIo :=
  (Poll.Ready (Except.ok ()), s)

/-- Model of `WsIo::poll_close` (`ws_io.rs`, lines 102–107): closes the
outgoing channel and reports immediate success. -/
def WsIo.poll_close (s : WsIo) : Poll (Except String Unit) × WsIo :=
  (Poll.Ready (Except.ok ()), { s with outgoingClosed := true })

/-- The bytes a binary frame contributes to the byte stream (a text frame
contributes none: the adapter drops it). -/
def Message.payload : Message → List Nat
  | Message.text _ => []
  | Message.bytes data => data

/-- All bytes still pending inside a `WsIo`: the leftover buffer followed by
the payloads of the queued frames, in order. -/
def WsIo.pendingBytes (s : WsIo) : List Nat :=
  s.read_buffer ++ (s.incoming.map Message.payload).flatten

/-- Run a sequence of reads with the given caller-buffer sizes, collecting
the bytes each successful read returns, in order. -/
def runReads (s : WsIo) (sizes : List Nat) : List Nat × WsIo :=
  match sizes with
  | [] => ([], s)
  | n :: rest =>
    match s.poll_read n with
    | (Poll.Ready (Except.ok bs), s') =>
      let r := runReads s' rest
      (bs ++ r.1, r.2)
    | (_, s') => runReads s' rest

/-- Run a sequence of writes of the given buffers. -/
def runWrites (s : WsIo) (bufs : List (List Nat)) : WsIo :=
  match bufs with
  | [] => s
  | b :: rest => runWrites (s.poll_write b).2 rest

/-- Bytes a single poll outcome delivers to the caller. -/
def readOut : Poll (Except String (List Nat)) → List Nat
  | Poll.Ready (Except.ok bs) => bs
  | _ => []

/-- A concrete reader state holding two inbound frames, for evaluation. -/
def wsReaderExample : WsIo :=
  { incoming := [Message.bytes [1, 2, 3], Message.bytes [4, 5]],
    incomingClosed := true, read_buffer := [], outgoing := [],
    outgoingClosed := false }

/-- An ended inbound side: frame queue drained and the receive pump gone. -/
def wsEndedExample : WsIo :=
  { incoming := [], incomingClosed := true, read_buffer := [], outgoing := [],
    outgoingClosed := false }

/-- A reader about to receive a zero-length binary frame. -/
def wsEmptyFrameExample : WsIo :=
  { incoming := [Message.bytes [], Message.bytes [6]], incomingClosed := false,
    read_buffer := [], outgoing := [], outgoingClosed := false }

/-- A reader holding leftover bytes from an earlier over-sized frame. -/
def wsLeftoverExample : WsIo :=
  { incoming := [], incomingClosed := false, read_buffer := [5, 6],
    outgoing := [], outgoingClosed := false }

namespace Payjoin

/-- Model of `payjoin::receive::v2::Enrolled`, the opaque enrollment
credential supplied by the protocol library.  Only its 33-byte compressed
public key is inspected by this subsystem; the rest is carried opaquely. -/
structure Enrolled where
  pubkey : List Nat
  blob : List Nat
deriving Repr, DecidableEq

/-- Model of `Session` (`payjoin.rs`, lines 24–28): an enrollment credential
together with an absolute expiry timestamp (a `Duration` since the epoch,
modelled in seconds). -/
structure Session where
  enrolled : Enrolled
  expiry : Nat
deriving Repr, DecidableEq

/-- Model of `Session::pubkey` (`payjoin.rs`, lines 30–34). -/
def Session.pubkey (s : Session) : List Nat :=
  s.enrolled.pubkey

/-- Model of `MutinyError`, the storage collaborator's error type; the
modelled store never produces one. -/
inductive MutinyError where
  | storageError (msg : String)
deriving Repr, DecidableEq

/-- Modelled from the spec: the generic key-value storage collaborator
(`MutinyStorage`), whose implementation is not part of the embedded sources.
Per §6 it offers per-key atomic `get(key)`, `set(key, value)`,
`scan(prefix)` and `delete(keys)`; we model its state as an association list
from string keys to sessions, most recent write first. -/
abbrev Store : Type := List (String × Session)

/-- Modelled from the spec: `get(key) -> Option<Session>` point lookup. -/
def Store.get_data (st : Store) (k : String) : Option Session :=
  (List.find? (fun p => p.1 == k) st).map (fun p => p.2)

/-- Modelled from the spec: `set(key, Session)` stores the value under the
key, overwriting any previous entry (last-write-wins). -/
def Store.set_data (st : Store) (k : String) (v : Session) : Store :=
  (k, v) :: List.filter (fun p => p.1 != k) st

/-- Modelled from the spec: `delete(keys)` removes every entry whose key is
listed; removing an absent key is a no-op, not an error. -/
def Store.delete (st : Store) (ks : List String) : Store :=
  List.filter (fun p => !(ks.contains p.1)) st

/-- Modelled from the spec: `scan(prefix)` returns the entries whose key
starts with the given string. -/
def Store.scan (st : Store) (pre : String) : Store :=
  List.filter (fun p => pre.isPrefixOf p.1) st

/-- The reserved key namespace `PAYJOIN_KEY_PREFIX = "payjoin/"`
(`payjoin.rs`, line 42). -/
def PAYJOIN_KEY_HEAD : String := "payjoin/"

/-- Lowercase hex digit for a value below 16, as produced by
`hex_conservative::DisplayHex`. -/
def hexChar (n : Nat) : Char :=
  if n < 10 then Char.ofNat (48 + n) else Char.ofNat (87 + n)

/-- The two lowercase hex digits of one byte. -/
def hexByte (b : Nat) : List Char :=
  [hexChar (b / 16), hexChar (b % 16)]

/-- Lowercase hex encoding of a byte string (`id.as_hex()`). -/
def hexChars (id : List Nat) : List Char :=
  (id.map hexByte).flatten

/-- Model of `get_payjoin_key` (`payjoin.rs`, lines 44–46): the reserved
namespace followed by the hex encoding of the 33-byte public key. -/
def get_payjoin_key (id : List Nat) : String :=
  PAYJOIN_KEY_HEAD ++ String.mk (hexChars id)

/-- Model of `PayjoinStorage::get_payjoin` (`payjoin.rs`, lines 49–52):
point lookup under the session key; absence is `none`, not an error. -/
def get_payjoin (st : Store) (id : List Nat) :
    Except MutinyError (Option Session) :=
  Except.ok (st.get_data (get_payjoin_key id))

/-- Model of `PayjoinStorage::get_payjoins` (`payjoin.rs`, lines 54–57):
every session found under the reserved namespace, order unspecified. -/
def get_payjoins (st : Store) : Except MutinyError (List Session) :=
  Except.ok ((st.scan PAYJOIN_KEY_HEAD).map (fun p => p.2))

/-- Model of `PayjoinStorage::persist_payjoin` (`payjoin.rs`, lines 59–67):
expiry is the current time plus 24 hours, the enrollment is wrapped into a
`Session` stored under its public key's reserved key, and the stored session
is returned together with the updated store. -/
def persist_payjoin (st : Store) (now : Nat) (enrolled : Enrolled) :
    Except MutinyError (Session × Store) :=
  let in_24_hours := now + 60 * 60 * 24
  let session : Session := { enrolled := enrolled, expiry := in_24_hours }
  Except.ok (session, st.set_data (get_payjoin_key session.pubkey) session)

/-- Model of `PayjoinStorage::delete_payjoin` (`payjoin.rs`, lines 69–71). -/
def delete_payjoin (st : Store) (id : List Nat) : Except MutinyError Store :=
  Except.ok (st.delete [get_payjoin_key id])

/-- Model of the `Error` taxonomy (`payjoin.rs`, lines 143–154).  Error
payloads that the embedded code only ever converts to strings are modelled
as strings. -/
inductive Error where
  | Reqwest (e : String)
  | ReceiverStateMachine (e : String)
  | Txid (e : String)
  | OhttpDecodeFailed
  | Shutdown
  | SessionExpired
  | BadDirectoryHost
  | BadOhttpWsHost
  | RequestFailed (e : String)
deriving Repr, DecidableEq

/-- The CRLFCRLF header/body separator (`payjoin.rs`, line 123). -/
def separator : List Nat := [13, 10, 13, 10]

/-- Position of the first window equal to `separator`, modelling
`response_bytes.windows(4).position(|w| w == separator)`. -/
def findSep : List Nat → Option Nat
  | [] => none
  | x :: tail =>
    if (x :: tail).take 4 = separator then some 0
    else (findSep tail).map (· + 1)

/-- Decidable occurrence of the separator as a contiguous subsequence. -/
def hasSep : List Nat → Bool
  | [] => false
  | x :: tail => ((x :: tail).take 4 == separator) || hasSep tail

/-- Model of `separate_headers_and_body` (`payjoin.rs`, lines 122–141). -/
def separate_headers_and_body (response_bytes : List Nat) :
    Except Error (List Nat × List Nat) :=
  match findSep response_bytes with
  | some position =>
    let body_start_index := position + separator.length
    Except.ok (response_bytes.take position, response_bytes.drop body_start_index)
  | none =>
    Except.error (Error.RequestFailed
      "No header-body separator found in the response")

/-- Model of `url::Url` as observed by `fetch_ohttp_keys`: only
`host_str()` is consulted. -/
structure Url where
  host : Option String
deriving Repr, DecidableEq

/-- Outcomes of the external effects `fetch_ohttp_keys` performs, so the
function's control flow can be modelled as a pure function of them:
`validServerName` is `rustls ServerName::try_from` succeeding on a host,
`wsOpen` is `WebSocket::open` on the relay URL, `tlsConnect` is the TLS
handshake, `writeRes`/`flushRes`/`readRes` are the stream operations on the
TLS stream, and `decode` is `OhttpKeys::decode` on the response body. -/
structure FetchEnv where
  validServerName : String → Bool
  wsOpen : String → Except String Unit
  tlsConnect : String → Except String Unit
  writeRes : Except String Unit
  flushRes : Except String Unit
  readRes : Except String (List Nat)
  decode : List Nat → Option (List Nat)

/-- Observable trace of a `fetch_ohttp_keys` run: the WebSocket URL opened,
the TLS server name handshaken with, and the HTTP requests written. -/
structure FetchTrace where
  wsUrl : Option String := none
  serverName : Option String := none
  requests : List String := []
deriving Repr, DecidableEq

/-- Model of `fetch_ohttp_keys` (`payjoin.rs`, lines 74–120), returning the
result together with the observable trace.  The step order mirrors the
source: directory host extraction and server-name validation, relay host
extraction and WebSocket open, TLS connect against the directory host, one
HTTP/1.1 request, flush, read to end, header/body split, key decode. -/
def fetch_ohttp_keys (env : FetchEnv) (ohttp_relay directory : Url) :
    Except Error (List Nat) × FetchTrace :=
  match directory.host with
  | none => (Except.error Error.BadDirectoryHost, {})
  | some directory_host =>
    if env.validServerName directory_host then
      match ohttp_relay.host with
      | none => (Except.error Error.BadOhttpWsHost, {})
      | some relay_host =>
        let ws_url := "wss://" ++ relay_host ++ ":443"
        match env.wsOpen ws_url with
        | Except.error _ =>
          (Except.error Error.BadOhttpWsHost, { wsUrl := some ws_url })
        | Except.ok _ =>
          let t1 : FetchTrace :=
            { wsUrl := some ws_url, serverName := some directory_host }
          match env.tlsConnect directory_host with
          | Except.error e => (Except.error (Error.RequestFailed e), t1)
          | Except.ok _ =>
            let ohttp_keys_req :=
              "GET /ohttp-keys HTTP/1.1\r\nHost: " ++ directory_host ++
                "\r\nConnection: close\r\n\r\n"
            let t2 := { t1 with requests := [ohttp_keys_req] }
            match env.writeRes with
            | Except.error e => (Except.error (Error.RequestFailed e), t2)
            | Except.ok _ =>
              match env.flushRes with
              | Except.error e => (Except.error (Error.RequestFailed e), t2)
              | Except.ok _ =>
                match env.readRes with
                | Except.error e => (Except.error (Error.RequestFailed e), t2)
                | Except.ok response_bytes =>
                  match separate_headers_and_body response_bytes with
                  | Except.error e => (Except.error e, t2)
                  | Except.ok (_, res_body) =>
                    match env.decode res_body with
                    | none => (Except.error Error.OhttpDecodeFailed, t2)
                    | some keys => (Except.ok keys, t2)
    else (Except.error Error.BadDirectoryHost, {})

/-- Byte view of an ASCII string. -/
def strBytes (s : String) : List Nat :=
  s.data.map Char.toNat

/-- A fetch environment where every external effect succeeds and the
response decodes, for evaluation. -/
def fetchEnvOk : FetchEnv :=
  { validServerName := fun _ => true
    wsOpen := fun _ => Except.ok ()
    tlsConnect := fun _ => Except.ok ()
    writeRes := Except.ok ()
    flushRes := Except.ok ()
    readRes := Except.ok (strBytes "HTTP/1.1 200 OK\r\n\r\nKEYS")
    decode := fun bs => some bs }

end Payjoin

example :
    (runReads { wsIoInit with
        incoming := [Message.bytes [1, 2, 3], Message.bytes [4, 5]],
        incomingClosed := true } [2, 2, 2]).1 = [1, 2, 3, 4, 5] := by decide

example :
    (runWrites wsIoInit [[1, 2], [], [3]]).outgoing =
      [Message.bytes [1, 2], Message.bytes [], Message.bytes [3]] := by decide

/-! ## Transport lemmas -/

lemma poll_read_conserve (s : WsIo) (n : Nat) :
    readOut (s.poll_read n).1 ++ (s.poll_read n).2.pendingBytes =
      s.pendingBytes := by
  obtain ⟨inc, incC, rb, outg, outgC⟩ := s
  cases rb with
  | cons b t =>
    simp only [WsIo.poll_read, List.isEmpty_cons, Bool.false_eq_true,
      if_false, readOut, WsIo.pendingBytes]
    rw [← List.append_assoc, List.take_append_drop]
  | nil =>
    cases inc with
    | nil =>
      cases incC <;>
        simp [WsIo.poll_read, readOut, WsIo.pendingBytes]
    | cons m rest =>
      cases m with
      | text str =>
        simp [WsIo.poll_read, readOut, WsIo.pendingBytes, Message.payload]
      | bytes d =>
        simp only [WsIo.poll_read, List.isEmpty_nil, if_true, readOut,
          WsIo.pendingBytes, List.map_cons, List.flatten_cons,
          Message.payload, List.nil_append]
        rw [← List.append_assoc, List.take_append_drop]

lemma runReads_conserve (sizes : List Nat) :
    ∀ s : WsIo,
      (runReads s sizes).1 ++ (runReads s sizes).2.pendingBytes =
        s.pendingBytes := by
  induction sizes with
  | nil => intro s; simp [runReads]
  | cons n rest ih =>
    intro s
    have h := poll_read_conserve s n
    rcases hp : s.poll_read n with ⟨po, s'⟩
    rw [hp] at h
    cases po with
    | Pending =>
      simp only [readOut] at h
      simp only [runReads, hp]
      rw [ih s', ← h]
      simp
    | Ready r =>
      cases r with
      | ok bs =>
        simp only [readOut] at h
        simp only [runReads, hp]
        rw [List.append_assoc, ih s', ← h]
      | error e =>
        simp only [readOut] at h
        simp only [runReads, hp]
        rw [ih s', ← h]
        simp

lemma runWrites_spec (bufs : List (List Nat)) :
    ∀ s : WsIo, s.outgoingClosed = false →
      (runWrites s bufs).outgoing = s.outgoing ++ bufs.map Message.bytes ∧
      (runWrites s bufs).outgoingClosed = false := by
  induction bufs with
  | nil => intro s h; simp [runWrites, h]
  | cons b rest ih =>
    intro s h
    have step : (s.poll_write b).2 =
        { s with outgoing := s.outgoing ++ [Message.bytes b] } := by
      simp [WsIo.poll_write, h]
    have := ih { s with outgoing := s.outgoing ++ [Message.bytes b] } (by simp [h])
    simp only [runWrites, step]
    simpa [List.append_assoc] using this

lemma readOut_length_le (s : WsIo) (n : Nat) :
    (readOut (s.poll_read n).1).length ≤ n := by
  obtain ⟨inc, incC, rb, outg, outgC⟩ := s
  cases rb with
  | cons b t =>
    simp [WsIo.poll_read, readOut]
  | nil =>
    cases inc with
    | nil => cases incC <;> simp [WsIo.poll_read, readOut]
    | cons m rest =>
      cases m with
      | text str => simp [WsIo.poll_read, readOut]
      | bytes d => simp [WsIo.poll_read, readOut]

/-- C1: for every sequence of buffers written through the transport and
every division of the reader's consumption into arbitrary buffer sizes,
writing enqueues exactly the written buffers as binary frames, each read
returns at most the caller's buffer size, and the bytes returned by
successive reads concatenate — together with whatever is still pending —
to the concatenation of the bytes written, in order; once nothing is
pending the reads have reconstructed the written byte sequence exactly. -/
theorem wsio_stream_reconstruction (bufs : List (List Nat))
    (sizes : List Nat) (reader : WsIo)
    (hq : reader.incoming = bufs.map Message.bytes)
    (hb : reader.read_buffer = []) :
    (runWrites wsIoInit bufs).outgoing = bufs.map Message.bytes ∧
    (∀ t : WsIo, ∀ n : Nat, (readOut (t.poll_read n).1).length ≤ n) ∧
    (runReads reader sizes).1 ++ (runReads reader sizes).2.pendingBytes =
      bufs.flatten ∧
    ((runReads reader sizes).2.pendingBytes = [] →
      (runReads reader sizes).1 = bufs.flatten) := by
  have hpend : reader.pendingBytes = bufs.flatten := by
    simp [WsIo.pendingBytes, hq, hb, List.map_map, Function.comp_def,
      Message.payload]
  have hcons := runReads_conserve sizes reader
  rw [hpend] at hcons
  refine ⟨(runWrites_spec bufs wsIoInit rfl).1, readOut_length_le, hcons, ?_⟩
  intro hdone
  rw [hdone, List.append_nil] at hcons
  exact hcons

theorem wsio_stream_reconstruction_witness :
    (runWrites wsIoInit [[1, 2, 3], [4, 5]]).outgoing =
        [Message.bytes [1, 2, 3], Message.bytes [4, 5]] ∧
      (runReads wsReaderExample [2, 2, 2]).1 = [1, 2, 3, 4, 5] := by
  have h := wsio_stream_reconstruction [[1, 2, 3], [4, 5]] [2, 2, 2]
    wsReaderExample rfl rfl
  exact ⟨h.1, (h.2.2.2 (by decide)).trans (by decide)⟩

/-- C4 counterexample: writing a zero-length buffer through an open
transport does emit an outbound frame — the empty binary frame — so the
claim that a zero-length write never emits a frame is false. -/
theorem wsio_zero_write_emits_frame :
    wsIoInit.outgoing = [] ∧
      ((wsIoInit.poll_write []).2).outgoing = [Message.bytes []] ∧
      (wsIoInit.poll_write []).1 = Poll.Ready (Except.ok 0) :=
  ⟨rfl, rfl, rfl⟩

/-- C4 (amended): while the outbound queue is open, every write — the
zero-length write included — enqueues exactly one outbound binary frame
holding exactly the input bytes and reports the full input length. -/
theorem wsio_write_one_frame (s : WsIo) (b : List Nat)
    (h : s.outgoingClosed = false) :
    s.poll_write b =
      (Poll.Ready (Except.ok b.length),
        { s with outgoing := s.outgoing ++ [Message.bytes b] }) := by
  simp [WsIo.poll_write, h]

theorem wsio_write_one_frame_witness :
    wsIoInit.poll_write [7, 8] =
      (Poll.Ready (Except.ok 2),
        { wsIoInit with outgoing := [Message.bytes [7, 8]] }) := by
  have h := wsio_write_one_frame wsIoInit [7, 8] rfl
  simpa [wsIoInit] using h

/-- C5 counterexample: once the inbound side has ended, the zero-length
end-of-stream read result IS repeated — a second read observes another
zero-length success — so the claim that it is observed exactly once is
false. -/
theorem wsio_eos_zero_read_repeats :
    (wsEndedExample.poll_read 8).1 = Poll.Ready (Except.ok []) ∧
      (((wsEndedExample.poll_read 8).2).poll_read 8).1 =
        Poll.Ready (Except.ok []) :=
  ⟨rfl, rfl⟩

/-- C5 (amended): after `poll_close`, every subsequent write fails with the
transport-closed error; once the inbound side has ended, every read (not
just the first) returns a zero-length success with the state unchanged; and
a read never surfaces an error at all, so socket closure never appears as a
read error. -/
theorem wsio_close_semantics (s t u : WsIo) (b : List Nat) (n m : Nat)
    (hrb : t.read_buffer = []) (hin : t.incoming = [])
    (hc : t.incomingClosed = true) :
    (((s.poll_close).2).poll_write b).1 =
      Poll.Ready (Except.error "WebSocket send channel closed") ∧
    t.poll_read n = (Poll.Ready (Except.ok []), t) ∧
    (∀ e, (u.poll_read m).1 ≠ Poll.Ready (Except.error e)) := by
  refine ⟨?_, ?_, ?_⟩
  · simp [WsIo.poll_close, WsIo.poll_write]
  · obtain ⟨inc, incC, rb, outg, outgC⟩ := t
    simp only at hrb hin hc
    subst hrb hin hc
    simp [WsIo.poll_read]
  · intro e
    obtain ⟨inc, incC, rb, outg, outgC⟩ := u
    cases rb with
    | cons x xs => simp [WsIo.poll_read]
    | nil =>
      cases inc with
      | nil => cases incC <;> simp [WsIo.poll_read]
      | cons msg rest =>
        cases msg with
        | text str => simp [WsIo.poll_read]
        | bytes d => simp [WsIo.poll_read]

theorem wsio_close_semantics_witness :
    (((wsIoInit.poll_close).2).poll_write [9]).1 =
      Poll.Ready (Except.error "WebSocket send channel closed") ∧
    wsEndedExample.poll_read 4 = (Poll.Ready (Except.ok []), wsEndedExample) ∧
    (∀ e, (wsReaderExample.poll_read 4).1 ≠ Poll.Ready (Except.error e)) :=
  wsio_close_semantics wsIoInit wsEndedExample wsReaderExample [9] 4 4
    rfl rfl rfl

/-- C9: a zero-length read result does not mean end-of-stream at the public
interface: with an empty leftover buffer, a zero-length inbound frame makes
a read return zero bytes while the socket is still open; a read into a
zero-length caller buffer returns zero bytes while all frame data remains
pending; and with leftover bytes buffered, a zero-length caller buffer also
reads zero bytes leaving the state untouched. -/
theorem wsio_zero_length_reads (s t u : WsIo) (rest rest' : List Message)
    (d : List Nat) (n : Nat)
    (h1 : s.read_buffer = []) (h2 : s.incoming = Message.bytes [] :: rest)
    (hopen : s.incomingClosed = false)
    (h3 : t.read_buffer = []) (h4 : t.incoming = Message.bytes d :: rest')
    (hd : d ≠ [])
    (h5 : u.read_buffer ≠ []) :
    s.poll_read n = (Poll.Ready (Except.ok []), { s with incoming := rest }) ∧
    (t.poll_read 0).1 = Poll.Ready (Except.ok []) ∧
    (t.poll_read 0).2.pendingBytes = t.pendingBytes ∧
    t.pendingBytes ≠ [] ∧
    (u.poll_read 0).1 = Poll.Ready (Except.ok []) ∧
    (u.poll_read 0).2 = u := by
  refine ⟨?_, ?_, ?_, ?_, ?_, ?_⟩
  · obtain ⟨inc, incC, rb, outg, outgC⟩ := s
    simp only at h1 h2 hopen
    subst h1 h2 hopen
    simp [WsIo.poll_read]
  · obtain ⟨inc, incC, rb, outg, outgC⟩ := t
    simp only at h3 h4
    subst h3 h4
    simp [WsIo.poll_read]
  · obtain ⟨inc, incC, rb, outg, outgC⟩ := t
    simp only at h3 h4
    subst h3 h4
    simp [WsIo.poll_read, WsIo.pendingBytes, Message.payload]
  · obtain ⟨inc, incC, rb, outg, outgC⟩ := t
    simp only at h3 h4
    subst h3 h4
    simp [WsIo.pendingBytes, Message.payload, hd]
  · obtain ⟨inc, incC, rb, outg, outgC⟩ := u
    cases rb with
    | nil => simp at h5
    | cons x xs => simp [WsIo.poll_read]
  · obtain ⟨inc, incC, rb, outg, outgC⟩ := u
    cases rb with
    | nil => simp at h5
    | cons x xs => simp [WsIo.poll_read]

theorem wsio_zero_length_reads_witness :
    wsEmptyFrameExample.poll_read 7 =
      (Poll.Ready (Except.ok []),
        { wsEmptyFrameExample with incoming := [Message.bytes [6]] }) ∧
    (wsReaderExample.poll_read 0).1 = Poll.Ready (Except.ok []) ∧
    wsReaderExample.pendingBytes ≠ [] ∧
    (wsLeftoverExample.poll_read 0).2 = wsLeftoverExample := by
  have h := wsio_zero_length_reads wsEmptyFrameExample wsReaderExample
    wsLeftoverExample [Message.bytes [6]] [Message.bytes [4, 5]] [1, 2, 3] 7
    rfl rfl rfl rfl rfl (by decide) (by decide)
  exact ⟨h.1, h.2.1, h.2.2.2.1, h.2.2.2.2.2⟩

namespace Payjoin

/-! ## Header/body split lemmas -/

lemma take_four_eq_separator_of_take (l : List Nat) (n : Nat)
    (h : (l.take n).take 4 = separator) : l.take 4 = separator := by
  rw [List.take_take] at h
  have hlen := congrArg List.length h
  rw [List.length_take] at hlen
  have hsep : separator.length = 4 := rfl
  rw [hsep] at hlen
  have h4 : min 4 n = 4 := by omega
  rwa [h4] at h

lemma hasSep_eq_isSome (r : List Nat) : hasSep r = (findSep r).isSome := by
  induction r with
  | nil => rfl
  | cons x t ih =>
    by_cases hc : (x :: t).take 4 = separator
    · simp [hasSep, findSep, hc]
    · have hb : ((x :: t).take 4 == separator) = false := by
        rw [beq_eq_false_iff_ne]; exact hc
      simp only [hasSep, findSep]
      rw [hb, if_neg hc, Bool.false_or, ih]
      cases findSep t <;> rfl

lemma findSep_window (r : List Nat) :
    ∀ p, findSep r = some p → (r.drop p).take 4 = separator := by
  induction r with
  | nil => intro p h; simp [findSep] at h
  | cons x t ih =>
    intro p h
    by_cases hc : (x :: t).take 4 = separator
    · simp only [findSep, if_pos hc, Option.some.injEq] at h
      subst h
      simpa using hc
    · simp only [findSep, if_neg hc, Option.map_eq_some'] at h
      obtain ⟨p', hp', rfl⟩ := h
      simpa [List.drop_succ_cons] using ih p' hp'

lemma findSep_headers_clean (r : List Nat) :
    ∀ p, findSep r = some p → hasSep (r.take p) = false := by
  induction r with
  | nil => intro p h; simp [findSep] at h
  | cons x t ih =>
    intro p h
    by_cases hc : (x :: t).take 4 = separator
    · simp only [findSep, if_pos hc, Option.some.injEq] at h
      subst h
      simp [hasSep]
    · simp only [findSep, if_neg hc, Option.map_eq_some'] at h
      obtain ⟨p', hp', rfl⟩ := h
      rw [List.take_succ_cons]
      have h1 : ((x :: t.take p').take 4 == separator) = false := by
        rw [beq_eq_false_iff_ne]
        intro hEq
        refine hc (take_four_eq_separator_of_take (x :: t) (p' + 1) ?_)
        rw [List.take_succ_cons]
        exact hEq
      show (((x :: t.take p').take 4 == separator) || hasSep (t.take p')) = false
      rw [h1, ih p' hp', Bool.or_self]

/-- C2: a byte string containing CRLFCRLF splits into headers and body such
that `headers ++ CRLFCRLF ++ body` reassembles the input and the separator
does not occur within the headers (first-occurrence split); a byte string
without the separator yields the explicit request failure and no partial
output. -/
theorem separate_headers_and_body_spec (r : List Nat) :
    (hasSep r = true →
      ∃ headers body,
        separate_headers_and_body r = Except.ok (headers, body) ∧
        headers ++ separator ++ body = r ∧
        hasSep headers = false) ∧
    (hasSep r = false →
      separate_headers_and_body r =
        Except.error (Error.RequestFailed
          "No header-body separator found in the response")) := by
  constructor
  · intro h
    rw [hasSep_eq_isSome] at h
    obtain ⟨p, hp⟩ := Option.isSome_iff_exists.mp h
    refine ⟨r.take p, r.drop (p + 4), ?_, ?_, findSep_headers_clean r p hp⟩
    · simp [separate_headers_and_body, hp, separator]
    · have hw := findSep_window r p hp
      have hsplit : separator ++ r.drop (p + 4) = r.drop p := by
        have hdd : (r.drop p).drop 4 = r.drop (p + 4) := by
          rw [List.drop_drop, Nat.add_comm]
        rw [← hw, ← hdd]
        exact List.take_append_drop 4 (r.drop p)
      rw [List.append_assoc, hsplit]
      exact List.take_append_drop p r
  · intro h
    rw [hasSep_eq_isSome] at h
    have hf : findSep r = none := by
      cases hf : findSep r with
      | none => rfl
      | some p => rw [hf] at h; simp at h
    simp [separate_headers_and_body, hf]

theorem separate_headers_and_body_spec_witness :
    (∃ headers body,
        separate_headers_and_body (strBytes "H1: a\r\nH2: b\r\n\r\nBODY") =
          Except.ok (headers, body) ∧
        headers ++ separator ++ body =
          strBytes "H1: a\r\nH2: b\r\n\r\nBODY" ∧
        hasSep headers = false) ∧
    separate_headers_and_body (strBytes "H1: a\r\nH2: b\r\n\r\nBODY") =
      Except.ok (strBytes "H1: a\r\nH2: b", strBytes "BODY") ∧
    separate_headers_and_body (strBytes "NO SEPARATOR HERE") =
      Except.error (Error.RequestFailed
        "No header-body separator found in the response") :=
  ⟨(separate_headers_and_body_spec _).1 (by decide), rfl,
    (separate_headers_and_body_spec _).2 (by decide)⟩

end Payjoin

namespace Payjoin

/-! ## Session storage lemmas -/

lemma get_data_set_self (st : Store) (k : String) (v : Session) :
    (st.set_data k v).get_data k = some v := by
  simp [Store.get_data, Store.set_data, List.find?_cons]

lemma find?_filter_of_imp {α : Type} (l : List α) (p q : α → Bool)
    (h : ∀ x, p x = true → q x = true) :
    (l.filter q).find? p = l.find? p := by
  induction l with
  | nil => rfl
  | cons x t ih =>
    cases hq : q x with
    | true =>
      cases hp : p x with
      | true => simp [List.filter_cons, hq, List.find?_cons, hp]
      | false => simp [List.filter_cons, hq, List.find?_cons, hp, ih]
    | false =>
      have hp : p x = false := by
        cases hpx : p x
        · rfl
        · rw [h x hpx] at hq; exact absurd hq (by simp)
      simp [List.filter_cons, hq, List.find?_cons, hp, ih]

lemma get_data_set_other (st : Store) (k k' : String) (v : Session)
    (hne : k' ≠ k) :
    (st.set_data k v).get_data k' = st.get_data k' := by
  have hhead : (k == k') = false := by
    rw [beq_eq_false_iff_ne]; exact fun hEq => hne hEq.symm
  simp only [Store.get_data, Store.set_data, List.find?_cons, hhead]
  rw [find?_filter_of_imp]
  intro x hx
  rw [beq_iff_eq] at hx
  rw [bne_iff_ne]
  rw [hx]
  exact hne

lemma get_data_delete_other (st : Store) (k k' : String) (hne : k' ≠ k) :
    (st.delete [k]).get_data k' = st.get_data k' := by
  simp only [Store.get_data, Store.delete]
  rw [find?_filter_of_imp]
  intro x hx
  rw [beq_iff_eq] at hx
  simp [List.contains, hx, hne]

lemma get_data_delete_self (st : Store) (k : String) :
    (st.delete [k]).get_data k = none := by
  simp only [Store.get_data, Store.delete, Option.map_eq_none']
  rw [List.find?_eq_none]
  intro x hx
  rw [List.mem_filter] at hx
  simp only [List.contains, List.elem_cons, List.elem_nil] at hx
  rcases hx with ⟨-, hx2⟩
  intro hk
  rw [beq_iff_eq] at hk
  rw [hk] at hx2
  simp at hx2

/-- C3: persisting an enrollment succeeds and returns the stored `Session`,
whose enrolled credential is the input and whose expiry is the persist time
plus exactly 24 hours; an immediate `get` under the enrollment's public key
returns that same session; and a repeat persist for the same public key
succeeds (last-write-wins overwrite, no conflict error) with the later
session visible. -/
theorem persist_then_get (st : Store) (now : Nat) (e : Enrolled) :
    ∃ sess st',
      persist_payjoin st now e = Except.ok (sess, st') ∧
      sess.enrolled = e ∧
      sess.expiry = now + 60 * 60 * 24 ∧
      get_payjoin st' e.pubkey = Except.ok (some sess) ∧
      ∀ now2, ∃ sess2 st'',
        persist_payjoin st' now2 e = Except.ok (sess2, st'') ∧
        sess2.expiry = now2 + 60 * 60 * 24 ∧
        get_payjoin st'' e.pubkey = Except.ok (some sess2) := by
  refine ⟨_, _, rfl, rfl, rfl, ?_, ?_⟩
  · simp only [get_payjoin, persist_payjoin, Session.pubkey]
    rw [get_data_set_self]
  · intro now2
    refine ⟨_, _, rfl, rfl, ?_⟩
    simp only [get_payjoin, persist_payjoin, Session.pubkey]
    rw [get_data_set_self]

/-- C8: deleting a session id always succeeds, also when nothing is stored
under it; a lookup of an absent id is an explicit `none`, not an error; and
after a delete the lookup of that id returns `none`. -/
theorem delete_then_get (st : Store) (id : List Nat) :
    ∃ st',
      delete_payjoin st id = Except.ok st' ∧
      get_payjoin st' id = Except.ok none ∧
      (st.get_data (get_payjoin_key id) = none →
        get_payjoin st id = Except.ok none) := by
  refine ⟨_, rfl, ?_, ?_⟩
  · simp only [get_payjoin, delete_payjoin]
    rw [get_data_delete_self]
  · intro h
    simp only [get_payjoin, h]

theorem delete_then_get_witness :
    ∃ st',
      delete_payjoin ([] : Store) (List.replicate 33 0) = Except.ok st' ∧
      get_payjoin st' (List.replicate 33 0) = Except.ok none ∧
      (Store.get_data ([] : Store)
          (get_payjoin_key (List.replicate 33 0)) = none →
        get_payjoin ([] : Store) (List.replicate 33 0) = Except.ok none) :=
  delete_then_get ([] : Store) (List.replicate 33 0)

end Payjoin

namespace Payjoin

/-! ## Key-encoding injectivity and frame lemmas -/

lemma hexChar_inj :
    ∀ a, a < 16 → ∀ b, b < 16 → hexChar a = hexChar b → a = b := by decide

lemma hexByte_inj {a b : Nat} (ha : a < 256) (hb : b < 256)
    (h : hexByte a = hexByte b) : a = b := by
  simp only [hexByte, List.cons.injEq, and_true] at h
  obtain ⟨h1, h2⟩ := h
  have e1 : a / 16 = b / 16 :=
    hexChar_inj _ (by omega) _ (by omega) h1
  have e2 : a % 16 = b % 16 :=
    hexChar_inj _ (by omega) _ (by omega) h2
  omega

lemma hexChars_inj :
    ∀ a b : List Nat, (∀ x ∈ a, x < 256) → (∀ x ∈ b, x < 256) →
      a.length = b.length → hexChars a = hexChars b → a = b := by
  intro a
  induction a with
  | nil =>
    intro b _ _ hlen _
    cases b with
    | nil => rfl
    | cons y ys => simp at hlen
  | cons x xs ih =>
    intro b ha hb hlen h
    cases b with
    | nil => simp at hlen
    | cons y ys =>
      simp only [hexChars, List.map_cons, List.flatten_cons] at h
      have hlen2 : (hexByte x).length = (hexByte y).length := by
        simp [hexByte]
      obtain ⟨h1, h2⟩ := List.append_inj h hlen2
      have hx : x = y := hexByte_inj (ha x (by simp)) (hb y (by simp)) h1
      subst hx
      have hrest : xs = ys :=
        ih ys (fun z hz => ha z (by simp [hz]))
          (fun z hz => hb z (by simp [hz]))
          (by simpa using hlen) (by simpa [hexChars] using h2)
      rw [hrest]

lemma string_data_append (s t : String) : (s ++ t).data = s.data ++ t.data := by
  cases s
  cases t
  rfl

lemma get_payjoin_key_inj {id id' : List Nat}
    (hb : ∀ x ∈ id, x < 256) (hb' : ∀ x ∈ id', x < 256)
    (hlen : id.length = id'.length)
    (h : get_payjoin_key id = get_payjoin_key id') : id = id' := by
  unfold get_payjoin_key at h
  have hd := congrArg String.data h
  rw [string_data_append, string_data_append] at hd
  have htail : hexChars id = hexChars id' := by
    have := List.append_cancel_left hd
    simpa using this
  exact hexChars_inj id id' hb hb' hlen htail

lemma filter_key_through (l : List (String × Session))
    (q r : String × Session → Bool) (k' : String)
    (h : ∀ x, (x.1 == k') = true → r x = true) :
    List.filter (fun p => p.1 == k') (List.filter q (List.filter r l)) =
      List.filter (fun p => p.1 == k') (List.filter q l) := by
  induction l with
  | nil => rfl
  | cons x t ih =>
    by_cases hr : r x = true
    · by_cases hq : q x = true
      · by_cases hk : (x.1 == k') = true
        · simp [List.filter_cons, hr, hq, hk, ih, -List.filter_filter]
        · simp [List.filter_cons, hr, hq, hk, ih, -List.filter_filter]
      · simp [List.filter_cons, hr, hq, ih, -List.filter_filter]
    · have hk : (x.1 == k') = false := by
        cases hkx : (x.1 == k')
        · rfl
        · rw [h x hkx] at hr; exact absurd rfl hr
      by_cases hq : q x = true
      · simp [List.filter_cons, hr, hq, hk, ih, -List.filter_filter]
      · simp [List.filter_cons, hr, hq, hk, ih, -List.filter_filter]

lemma scan_filter_set_other (st : Store) (k k' : String) (v : Session)
    (hne : k' ≠ k) :
    List.filter (fun p => p.1 == k')
        (Store.scan (Store.set_data st k v) PAYJOIN_KEY_HEAD) =
      List.filter (fun p => p.1 == k') (Store.scan st PAYJOIN_KEY_HEAD) := by
  have hk : (k == k') = false := by
    rw [beq_eq_false_iff_ne]; exact fun hEq => hne hEq.symm
  have hthrough :
      List.filter (fun p => p.1 == k')
          (List.filter (fun p => PAYJOIN_KEY_HEAD.isPrefixOf p.1)
            (List.filter (fun p => p.1 != k) st)) =
        List.filter (fun p => p.1 == k')
          (List.filter (fun p => PAYJOIN_KEY_HEAD.isPrefixOf p.1) st) := by
    refine filter_key_through st _ _ k' ?_
    intro x hx
    rw [beq_iff_eq] at hx
    rw [bne_iff_ne, hx]
    exact hne
  by_cases hpre : PAYJOIN_KEY_HEAD.isPrefixOf k = true
  · simpa [Store.scan, Store.set_data, List.filter_cons, hpre, hk]
      using hthrough
  · simpa [Store.scan, Store.set_data, List.filter_cons, hpre, hk]
      using hthrough

lemma scan_filter_delete_other (st : Store) (k k' : String) (hne : k' ≠ k) :
    List.filter (fun p => p.1 == k')
        (Store.scan (Store.delete st [k]) PAYJOIN_KEY_HEAD) =
      List.filter (fun p => p.1 == k') (Store.scan st PAYJOIN_KEY_HEAD) := by
  refine filter_key_through st _ _ k' ?_
  intro x hx
  rw [beq_iff_eq] at hx
  simp [List.contains, hx, hne]

end Payjoin

namespace Payjoin

/-- C10: persisting an enrollment writes only the reserved-namespace key
derived from its public key, and deleting an id removes only that id's key:
any unrelated raw storage key is untouched, a lookup under any other 33-byte
public key is unchanged, and the namespace scan that `get_payjoins` reads is
unchanged at every other public key's entry. -/
theorem payjoin_frame (st : Store) (now : Nat) (e : Enrolled)
    (id other : List Nat) (k : String)
    (he1 : e.pubkey.length = 33) (he2 : ∀ x ∈ e.pubkey, x < 256)
    (hi1 : id.length = 33) (hi2 : ∀ x ∈ id, x < 256)
    (ho1 : other.length = 33) (ho2 : ∀ x ∈ other, x < 256)
    (hne1 : other ≠ e.pubkey) (hne2 : other ≠ id)
    (hk1 : k ≠ get_payjoin_key e.pubkey) (hk2 : k ≠ get_payjoin_key id) :
    ∃ sess st',
      persist_payjoin st now e = Except.ok (sess, st') ∧
      Store.get_data st' k = Store.get_data st k ∧
      get_payjoin st' other = get_payjoin st other ∧
      List.filter (fun p => p.1 == get_payjoin_key other)
          (Store.scan st' PAYJOIN_KEY_HEAD) =
        List.filter (fun p => p.1 == get_payjoin_key other)
          (Store.scan st PAYJOIN_KEY_HEAD) ∧
      ∃ st'',
        delete_payjoin st id = Except.ok st'' ∧
        Store.get_data st'' k = Store.get_data st k ∧
        get_payjoin st'' other = get_payjoin st other ∧
        List.filter (fun p => p.1 == get_payjoin_key other)
            (Store.scan st'' PAYJOIN_KEY_HEAD) =
          List.filter (fun p => p.1 == get_payjoin_key other)
            (Store.scan st PAYJOIN_KEY_HEAD) := by
  have hko1 : get_payjoin_key other ≠ get_payjoin_key e.pubkey := fun hEq =>
    hne1 (get_payjoin_key_inj ho2 he2 (by rw [ho1, he1]) hEq)
  have hko2 : get_payjoin_key other ≠ get_payjoin_key id := fun hEq =>
    hne2 (get_payjoin_key_inj ho2 hi2 (by rw [ho1, hi1]) hEq)
  refine ⟨_, _, rfl, ?_, ?_, ?_, _, rfl, ?_, ?_, ?_⟩
  · exact get_data_set_other st _ k _ hk1
  · simp only [get_payjoin, Except.ok.injEq]
    exact get_data_set_other st _ _ _ hko1
  · exact scan_filter_set_other st _ _ _ hko1
  · exact get_data_delete_other st _ k hk2
  · simp only [get_payjoin, Except.ok.injEq]
    exact get_data_delete_other st _ _ hko2
  · exact scan_filter_delete_other st _ _ hko2

theorem payjoin_frame_witness :
    ∃ sess st',
      persist_payjoin ([] : Store) 0 ⟨List.replicate 33 0, []⟩ =
        Except.ok (sess, st') ∧
      Store.get_data st' "unrelated" = Store.get_data ([] : Store) "unrelated" ∧
      get_payjoin st' (List.replicate 33 2) =
        get_payjoin ([] : Store) (List.replicate 33 2) ∧
      List.filter (fun p => p.1 == get_payjoin_key (List.replicate 33 2))
          (Store.scan st' PAYJOIN_KEY_HEAD) =
        List.filter (fun p => p.1 == get_payjoin_key (List.replicate 33 2))
          (Store.scan ([] : Store) PAYJOIN_KEY_HEAD) ∧
      ∃ st'',
        delete_payjoin ([] : Store) (List.replicate 33 1) = Except.ok st'' ∧
        Store.get_data st'' "unrelated" =
          Store.get_data ([] : Store) "unrelated" ∧
        get_payjoin st'' (List.replicate 33 2) =
          get_payjoin ([] : Store) (List.replicate 33 2) ∧
        List.filter (fun p => p.1 == get_payjoin_key (List.replicate 33 2))
            (Store.scan st'' PAYJOIN_KEY_HEAD) =
          List.filter (fun p => p.1 == get_payjoin_key (List.replicate 33 2))
            (Store.scan ([] : Store) PAYJOIN_KEY_HEAD) :=
  payjoin_frame ([] : Store) 0 ⟨List.replicate 33 0, []⟩
    (List.replicate 33 1) (List.replicate 33 2) "unrelated"
    (by decide) (by decide) (by decide) (by decide) (by decide) (by decide)
    (by decide) (by decide) (by decide) (by decide)

end Payjoin

namespace Payjoin

/-! ## Key-fetcher lemmas -/

lemma separate_error_of_no_sep (r : List Nat) (h : hasSep r = false) :
    separate_headers_and_body r =
      Except.error (Error.RequestFailed
        "No header-body separator found in the response") := by
  rw [hasSep_eq_isSome] at h
  have hf : findSep r = none := by
    cases hf : findSep r with
    | none => rfl
    | some p => rw [hf] at h; simp at h
  simp [separate_headers_and_body, hf]

/-- C6: every failure class of the key fetcher surfaces as its own
distinguishable error value: a missing or invalid directory hostname yields
the directory bad-host error (attributable to the directory), a missing
relay hostname or a failed WebSocket open yields the relay bad-host error,
a TLS/write/flush/read fault yields a request failure carrying that fault's
descriptive text, a response without the header/body separator yields a
request failure with the separator message, a body that fails to decode
yields the distinct decode error — and the four classes are pairwise
distinct values. -/
theorem fetch_ohttp_keys_error_taxonomy (env : FetchEnv) (relay dir : Url) :
    (dir.host = none →
      (fetch_ohttp_keys env relay dir).1 =
        Except.error Error.BadDirectoryHost) ∧
    (∀ h, dir.host = some h → env.validServerName h = false →
      (fetch_ohttp_keys env relay dir).1 =
        Except.error Error.BadDirectoryHost) ∧
    (∀ h, dir.host = some h → env.validServerName h = true →
      relay.host = none →
      (fetch_ohttp_keys env relay dir).1 =
        Except.error Error.BadOhttpWsHost) ∧
    (∀ h rh e, dir.host = some h → env.validServerName h = true →
      relay.host = some rh →
      env.wsOpen ("wss://" ++ rh ++ ":443") = Except.error e →
      (fetch_ohttp_keys env relay dir).1 =
        Except.error Error.BadOhttpWsHost) ∧
    (∀ h rh e, dir.host = some h → env.validServerName h = true →
      relay.host = some rh →
      env.wsOpen ("wss://" ++ rh ++ ":443") = Except.ok () →
      env.tlsConnect h = Except.error e →
      (fetch_ohttp_keys env relay dir).1 =
        Except.error (Error.RequestFailed e)) ∧
    (∀ h rh e, dir.host = some h → env.validServerName h = true →
      relay.host = some rh →
      env.wsOpen ("wss://" ++ rh ++ ":443") = Except.ok () →
      env.tlsConnect h = Except.ok () →
      env.writeRes = Except.error e →
      (fetch_ohttp_keys env relay dir).1 =
        Except.error (Error.RequestFailed e)) ∧
    (∀ h rh e, dir.host = some h → env.validServerName h = true →
      relay.host = some rh →
      env.wsOpen ("wss://" ++ rh ++ ":443") = Except.ok () →
      env.tlsConnect h = Except.ok () →
      env.writeRes = Except.ok () → env.flushRes = Except.error e →
      (fetch_ohttp_keys env relay dir).1 =
        Except.error (Error.RequestFailed e)) ∧
    (∀ h rh e, dir.host = some h → env.validServerName h = true →
      relay.host = some rh →
      env.wsOpen ("wss://" ++ rh ++ ":443") = Except.ok () →
      env.tlsConnect h = Except.ok () →
      env.writeRes = Except.ok () → env.flushRes = Except.ok () →
      env.readRes = Except.error e →
      (fetch_ohttp_keys env relay dir).1 =
        Except.error (Error.RequestFailed e)) ∧
    (∀ h rh bs, dir.host = some h → env.validServerName h = true →
      relay.host = some rh →
      env.wsOpen ("wss://" ++ rh ++ ":443") = Except.ok () →
      env.tlsConnect h = Except.ok () →
      env.writeRes = Except.ok () → env.flushRes = Except.ok () →
      env.readRes = Except.ok bs → hasSep bs = false →
      (fetch_ohttp_keys env relay dir).1 =
        Except.error (Error.RequestFailed
          "No header-body separator found in the response")) ∧
    (∀ h rh bs hdrs body, dir.host = some h →
      env.validServerName h = true → relay.host = some rh →
      env.wsOpen ("wss://" ++ rh ++ ":443") = Except.ok () →
      env.tlsConnect h = Except.ok () →
      env.writeRes = Except.ok () → env.flushRes = Except.ok () →
      env.readRes = Except.ok bs →
      separate_headers_and_body bs = Except.ok (hdrs, body) →
      env.decode body = none →
      (fetch_ohttp_keys env relay dir).1 =
        Except.error Error.OhttpDecodeFailed) ∧
    (Error.BadDirectoryHost ≠ Error.BadOhttpWsHost ∧
      Error.BadDirectoryHost ≠ Error.OhttpDecodeFailed ∧
      Error.BadOhttpWsHost ≠ Error.OhttpDecodeFailed ∧
      ∀ e : String, Error.BadDirectoryHost ≠ Error.RequestFailed e ∧
        Error.BadOhttpWsHost ≠ Error.RequestFailed e ∧
        Error.OhttpDecodeFailed ≠ Error.RequestFailed e) := by
  refine ⟨?_, ?_, ?_, ?_, ?_, ?_, ?_, ?_, ?_, ?_, ?_⟩
  · intro h
    simp [fetch_ohttp_keys, h]
  · intro h hd hv
    simp [fetch_ohttp_keys, hd, hv]
  · intro h hd hv hr
    simp [fetch_ohttp_keys, hd, hv, hr]
  · intro h rh e hd hv hr hws
    simp [fetch_ohttp_keys, hd, hv, hr, hws]
  · intro h rh e hd hv hr hws htls
    simp [fetch_ohttp_keys, hd, hv, hr, hws, htls]
  · intro h rh e hd hv hr hws htls hw
    simp [fetch_ohttp_keys, hd, hv, hr, hws, htls, hw]
  · intro h rh e hd hv hr hws htls hw hf
    simp [fetch_ohttp_keys, hd, hv, hr, hws, htls, hw, hf]
  · intro h rh e hd hv hr hws htls hw hf hrd
    simp [fetch_ohttp_keys, hd, hv, hr, hws, htls, hw, hf, hrd]
  · intro h rh bs hd hv hr hws htls hw hf hrd hsep
    simp [fetch_ohttp_keys, hd, hv, hr, hws, htls, hw, hf, hrd,
      separate_error_of_no_sep bs hsep]
  · intro h rh bs hdrs body hd hv hr hws htls hw hf hrd hsep hdec
    simp [fetch_ohttp_keys, hd, hv, hr, hws, htls, hw, hf, hrd, hsep, hdec]
  · refine ⟨by simp, by simp, by simp, ?_⟩
    intro e
    refine ⟨by simp, by simp, by simp⟩

theorem fetch_ohttp_keys_error_taxonomy_witness :
    (fetch_ohttp_keys fetchEnvOk { host := some "relay.example" }
        { host := none }).1 = Except.error Error.BadDirectoryHost ∧
    (fetch_ohttp_keys fetchEnvOk { host := none }
        { host := some "payjo.in" }).1 = Except.error Error.BadOhttpWsHost :=
  ⟨(fetch_ohttp_keys_error_taxonomy fetchEnvOk { host := some "relay.example" }
      { host := none }).1 rfl,
    (fetch_ohttp_keys_error_taxonomy fetchEnvOk { host := none }
      { host := some "payjo.in" }).2.2.1 "payjo.in" rfl rfl rfl⟩

end Payjoin

namespace Payjoin

lemma fetch_trace_after_tls (env : FetchEnv) (relay dir : Url)
    (h rh : String)
    (hd : dir.host = some h) (hv : env.validServerName h = true)
    (hr : relay.host = some rh)
    (hws : env.wsOpen ("wss://" ++ rh ++ ":443") = Except.ok ())
    (htls : env.tlsConnect h = Except.ok ()) :
    (fetch_ohttp_keys env relay dir).2 =
      { wsUrl := some ("wss://" ++ rh ++ ":443"), serverName := some h,
        requests := ["GET /ohttp-keys HTTP/1.1\r\nHost: " ++ h ++
          "\r\nConnection: close\r\n\r\n"] } := by
  simp only [fetch_ohttp_keys, hd, hv, hr, hws, htls, if_true]
  rcases hw : env.writeRes with e | u
  · simp [hw]
  · rcases hf : env.flushRes with e | u
    · simp [hw, hf]
    · rcases hrd : env.readRes with e | bs
      · simp [hw, hf, hrd]
      · rcases hsep : separate_headers_and_body bs with e | pr
        · simp [hw, hf, hrd, hsep]
        · rcases pr with ⟨hdrs, body⟩
          rcases hdec : env.decode body with _ | keys
          · simp [hw, hf, hrd, hsep, hdec]
          · simp [hw, hf, hrd, hsep, hdec]

/-- C7: whenever the bootstrap reaches the HTTP exchange, exactly one
HTTP/1.1 request is written, and it is exactly the request line targeting
the key path, a `Host` header equal to the directory URL's hostname, a
`Connection: close` header, and the bare CRLFCRLF terminator (no body); the
TLS server name is likewise the directory hostname; and both are the same
whichever relay carries the bytes. -/
theorem fetch_ohttp_keys_request_shape (env : FetchEnv)
    (relay relay2 dir : Url) (h rh rh2 : String)
    (hd : dir.host = some h) (hv : env.validServerName h = true)
    (hr : relay.host = some rh)
    (hws : env.wsOpen ("wss://" ++ rh ++ ":443") = Except.ok ())
    (htls : env.tlsConnect h = Except.ok ())
    (hr2 : relay2.host = some rh2)
    (hws2 : env.wsOpen ("wss://" ++ rh2 ++ ":443") = Except.ok ()) :
    (fetch_ohttp_keys env relay dir).2.requests =
      ["GET /ohttp-keys HTTP/1.1\r\nHost: " ++ h ++
        "\r\nConnection: close\r\n\r\n"] ∧
    (fetch_ohttp_keys env relay dir).2.serverName = some h ∧
    (fetch_ohttp_keys env relay2 dir).2.requests =
      (fetch_ohttp_keys env relay dir).2.requests ∧
    (fetch_ohttp_keys env relay2 dir).2.serverName =
      (fetch_ohttp_keys env relay dir).2.serverName := by
  have t1 := fetch_trace_after_tls env relay dir h rh hd hv hr hws htls
  have t2 := fetch_trace_after_tls env relay2 dir h rh2 hd hv hr2 hws2 htls
  rw [t1, t2]
  exact ⟨rfl, rfl, rfl, rfl⟩

theorem fetch_ohttp_keys_request_shape_witness :
    (fetch_ohttp_keys fetchEnvOk { host := some "relay.example" }
        { host := some "payjo.in" }).2.requests =
      ["GET /ohttp-keys HTTP/1.1\r\nHost: payjo.in\r\nConnection: close\r\n\r\n"] ∧
    (fetch_ohttp_keys fetchEnvOk { host := some "relay.example" }
        { host := some "payjo.in" }).2.serverName = some "payjo.in" ∧
    (fetch_ohttp_keys fetchEnvOk { host := some "other.relay" }
          { host := some "payjo.in" }).2.requests =
        (fetch_ohttp_keys fetchEnvOk { host := some "relay.example" }
          { host := some "payjo.in" }).2.requests ∧
    (fetch_ohttp_keys fetchEnvOk { host := some "other.relay" }
          { host := some "payjo.in" }).2.serverName =
        (fetch_ohttp_keys fetchEnvOk { host := some "relay.example" }
          { host := some "payjo.in" }).2.serverName :=
  fetch_ohttp_keys_request_shape fetchEnvOk { host := some "relay.example" }
    { host := some "other.relay" } { host := some "payjo.in" }
    "payjo.in" "relay.example" "other.relay"
    rfl rfl rfl rfl rfl rfl rfl

end Payjoin
